import Mathlib

/-!
Verification of the superego incremental evaluation pipeline.

The Rust sources are shallowly embedded: strings are modelled as `List Char`
(Rust `str` operations are redefined over char lists, which coincides with the
byte-level behaviour on the ASCII data these functions handle), timestamps as
integer nanoseconds since the Unix epoch, and file-backed state as explicit
state values.  Each definition carries a comment naming the Rust item it
embeds.
-/

namespace Superego

/-! ## String primitives (Rust `str` methods over `List Char`) -/

/-- Rust `str::trim` at the start: drop leading whitespace. -/
def trimL (cs : List Char) : List Char :=
  cs.dropWhile Char.isWhitespace

/-- Rust `str::trim` at the end: drop trailing whitespace. -/
def trimR (cs : List Char) : List Char :=
  ((cs.reverse).dropWhile Char.isWhitespace).reverse

/-- Rust `str::trim`: drop leading and trailing whitespace. -/
def trim (cs : List Char) : List Char :=
  trimR (trimL cs)

/-- Rust `str::strip_prefix`: if `pat` is a prefix of `cs`, the remainder. -/
def stripPre (pat cs : List Char) : Option (List Char) :=
  if pat.isPrefixOf cs then some (cs.drop pat.length) else none

/-- Rust `str::to_uppercase` restricted to the ASCII range. -/
def toUpperChars (cs : List Char) : List Char :=
  cs.map Char.toUpper

/-- Rust `str::eq_ignore_ascii_case`. -/
def eqIgnoreAsciiCase (a b : List Char) : Bool :=
  decide (a.map Char.toLower = b.map Char.toLower)

/-- Join a list of lines with newline characters (Rust `join("\n")`). -/
def intercalateNl : List (List Char) → List Char
  | [] => []
  | [l] => l
  | l :: ls => l ++ '\n' :: intercalateNl ls

/-- Drop `pat` from the front of `cs` as long as it is a prefix (helper for
Rust `str::trim_end_matches`, applied to reversed lists).  The fuel argument
only bounds the iteration count: each successful step removes at least one
character, so any fuel of at least `cs.length + 1` gives the loop's exact
behaviour. -/
def dropRepeated (pat : List Char) : List Char → Nat → List Char
  | cs, 0 => cs
  | cs, fuel + 1 =>
    if !pat.isEmpty && pat.isPrefixOf cs then
      dropRepeated pat (cs.drop pat.length) fuel
    else cs

/-- Rust `str::trim_end_matches(pat)`: repeatedly strip the suffix `pat`. -/
def trimEndMatches (pat cs : List Char) : List Char :=
  (dropRepeated pat.reverse cs.reverse (cs.length + 1)).reverse

/-- One line of Rust `str::lines`: strip a single trailing `'\r'`. -/
def stripCR (cs : List Char) : List Char :=
  match cs.reverse with
  | '\r' :: rest => rest.reverse
  | _ => cs

/-- The streaming core of Rust `str::lines` over a non-empty input: `acc`
holds the current line's characters in reverse.  A newline emits the current
line; a newline at the very end of the input emits no further empty line. -/
def rustLinesCore : List Char → List Char → List (List Char)
  | [], acc => [stripCR acc.reverse]
  | '\n' :: rest, acc =>
    stripCR acc.reverse ::
      (match rest with
       | [] => []
       | _ :: _ => rustLinesCore rest [])
  | c :: rest, acc => rustLinesCore rest (c :: acc)

/-- Rust `str::lines`: split on `'\n'`, strip one trailing `'\r'` per line,
and produce no final empty line for a trailing newline (the empty string has
no lines). -/
def rustLines : List Char → List (List Char)
  | [] => []
  | c :: rest => rustLinesCore (c :: rest) []

/-! ## RFC 3339 timestamps

`chrono::DateTime::parse_from_rfc3339` is modelled as a function from char
lists to integer nanoseconds since the Unix epoch (offsets are subtracted, so
the result is a UTC instant; comparison of parsed values coincides with
chrono's `DateTime` ordering). -/

/-- Read exactly `k` decimal digits, extending the accumulator. -/
def readFixedNat : Nat → List Char → Nat → Option (Nat × List Char)
  | 0, cs, acc => some (acc, cs)
  | k + 1, c :: cs, acc =>
    if c.isDigit then readFixedNat k cs (acc * 10 + (c.toNat - 48)) else none
  | _ + 1, [], _ => none

/-- Expect a single character. -/
def expectChar (c : Char) : List Char → Option (List Char)
  | d :: cs => if d = c then some cs else none
  | [] => none

/-- Gregorian leap-year rule. -/
def isLeapYear (y : Nat) : Bool :=
  y % 4 == 0 && (y % 100 != 0 || y % 400 == 0)

/-- Days in a month of the proleptic Gregorian calendar. -/
def daysInMonth (y m : Nat) : Nat :=
  match m with
  | 1 => 31 | 3 => 31 | 5 => 31 | 7 => 31 | 8 => 31 | 10 => 31 | 12 => 31
  | 4 => 30 | 6 => 30 | 9 => 30 | 11 => 30
  | 2 => if isLeapYear y then 29 else 28
  | _ => 0

/-- Days from the Unix epoch to the civil date `y-m-d` (proleptic Gregorian,
the mapping chrono's `Utc` timeline implements).  All divisions act on
non-negative operands except the exactly-dividing `era` case, so the result
does not depend on the rounding convention. -/
def daysFromCivil (y m d : Nat) : Int :=
  let yi : Int := if m ≤ 2 then (y : Int) - 1 else (y : Int)
  let era : Int := (if 0 ≤ yi then yi else yi - 399) / 400
  let yoe : Int := yi - era * 400
  let mp : Int := ((m : Int) + 9) % 12
  let doy : Int := (153 * mp + 2) / 5 + (d : Int) - 1
  let doe : Int := yoe * 365 + yoe / 4 - yoe / 100 + doy
  era * 146097 + doe - 719468

/-- Fractional-second digits to nanoseconds: chrono keeps the first nine
digits and ignores the rest. -/
def fracNanos (ds : List Char) : Nat :=
  let nine := ds.take 9
  (nine.foldl (fun acc c => acc * 10 + (c.toNat - 48)) 0) * 10 ^ (9 - nine.length)

/-- Optional fractional seconds: a `'.'` followed by at least one digit. -/
def readFrac : List Char → Option (Nat × List Char)
  | '.' :: cs =>
    let ds := cs.takeWhile Char.isDigit
    if ds.isEmpty then none else some (fracNanos ds, cs.dropWhile Char.isDigit)
  | cs => some (0, cs)

/-- RFC 3339 numeric offset or `Z`/`z`, as seconds east of UTC; the input must
be fully consumed. -/
def readOffset : List Char → Option Int
  | ['Z'] => some 0
  | ['z'] => some 0
  | sign :: rest =>
    if sign = '+' ∨ sign = '-' then do
      let (oh, rest) ← readFixedNat 2 rest 0
      let rest ← expectChar ':' rest
      let (om, rest) ← readFixedNat 2 rest 0
      if rest = [] ∧ oh ≤ 23 ∧ om ≤ 59 then
        let secs : Int := (oh : Int) * 3600 + (om : Int) * 60
        some (if sign = '-' then -secs else secs)
      else none
    else none
  | [] => none

/-- `chrono::DateTime::parse_from_rfc3339`, as UTC nanoseconds since the Unix
epoch.  A leap second `:60` is accepted the way chrono stores it (as an extra
second's worth of nanoseconds). -/
def parseRFC3339 (cs : List Char) : Option Int := do
  let (y, cs) ← readFixedNat 4 cs 0
  let cs ← expectChar '-' cs
  let (mo, cs) ← readFixedNat 2 cs 0
  let cs ← expectChar '-' cs
  let (d, cs) ← readFixedNat 2 cs 0
  let cs ← match cs with
    | c :: rest => if c = 'T' ∨ c = 't' then some rest else none
    | [] => none
  let (h, cs) ← readFixedNat 2 cs 0
  let cs ← expectChar ':' cs
  let (mi, cs) ← readFixedNat 2 cs 0
  let cs ← expectChar ':' cs
  let (s, cs) ← readFixedNat 2 cs 0
  let (nanos, cs) ← readFrac cs
  let offset ← readOffset cs
  if 1 ≤ mo ∧ mo ≤ 12 ∧ 1 ≤ d ∧ d ≤ daysInMonth y mo ∧ h ≤ 23 ∧ mi ≤ 59 ∧ s ≤ 60 then
    let secs : Int := daysFromCivil y mo d * 86400 + (h : Int) * 3600 + (mi : Int) * 60 + (s : Int)
    some (secs * 1000000000 + (nanos : Int) - offset * 1000000000)
  else none

/-- String-level wrapper mirroring `DateTime::parse_from_rfc3339(ts).ok()`. -/
def parse_from_rfc3339 (s : String) : Option Int :=
  parseRFC3339 s.data

/-! ## Transcript data model (`src/transcript/types.rs`) -/

/-- Stand-in for `serde_json::Value` as used by the transcript types: the only
case split the embedded code performs is string versus anything else. -/
inductive JsonValue
  | str (s : String)
  | nonStr
  deriving DecidableEq

/-- `UserContentBlock` in `types.rs`. -/
structure UserContentBlock where
  block_type : String
  text : Option String
  tool_use_id : Option String
  content : Option JsonValue
  deriving DecidableEq

/-- `UserContent` in `types.rs`: a string or an array of blocks. -/
inductive UserContent
  | Text (s : String)
  | Blocks (bs : List UserContentBlock)
  deriving DecidableEq

/-- `UserMessage` in `types.rs`. -/
structure UserMessage where
  role : String
  content : UserContent
  deriving DecidableEq

/-- `AssistantContentBlock` in `types.rs`. -/
structure AssistantContentBlock where
  block_type : String
  text : Option String
  thinking : Option String
  name : Option String
  input : Option JsonValue
  deriving DecidableEq

/-- `AssistantMessage` in `types.rs`. -/
structure AssistantMessage where
  role : String
  content : List AssistantContentBlock
  model : Option String
  deriving DecidableEq

/-- `TranscriptEntry` in `types.rs`: the tagged variant over transcript
records, with the forward-compatibility catch-all. -/
inductive TranscriptEntry
  | Summary (summary : String) (leaf_uuid : Option String)
  | FileHistorySnapshot (message_id : Option String)
  | User (uuid : String) (parent_uuid : Option String) (session_id : Option String)
      (timestamp : Option String) (message : UserMessage)
  | Assistant (uuid : String) (parent_uuid : Option String) (session_id : Option String)
      (timestamp : Option String) (message : AssistantMessage)
  | Unknown
  deriving DecidableEq

namespace TranscriptEntry

/-- `TranscriptEntry::session_id`. -/
def session_id : TranscriptEntry → Option String
  | .User _ _ sid _ _ => sid
  | .Assistant _ _ sid _ _ => sid
  | _ => none

/-- `TranscriptEntry::timestamp`. -/
def timestamp : TranscriptEntry → Option String
  | .User _ _ _ ts _ => ts
  | .Assistant _ _ _ ts _ => ts
  | _ => none

/-- `TranscriptEntry::is_user`. -/
def is_user : TranscriptEntry → Bool
  | .User _ _ _ _ _ => true
  | _ => false

/-- `TranscriptEntry::is_assistant`. -/
def is_assistant : TranscriptEntry → Bool
  | .Assistant _ _ _ _ _ => true
  | _ => false

/-- `TranscriptEntry::is_message`. -/
def is_message (e : TranscriptEntry) : Bool :=
  e.is_user || e.is_assistant

/-- `TranscriptEntry::is_summary`. -/
def is_summary : TranscriptEntry → Bool
  | .Summary _ _ => true
  | _ => false

end TranscriptEntry

/-! ## Context selection (`src/transcript/reader.rs`, `get_messages_since`) -/

/-- The `session_filter` closure in `get_messages_since`: with a session id,
require the entry's session id to equal it; without one, include all. -/
def session_filter (sessionId : Option String) (e : TranscriptEntry) : Bool :=
  match sessionId with
  | some sid => decide (e.session_id = some sid)
  | none => true

/-- The `content_filter` closure: messages and summaries. -/
def content_filter (e : TranscriptEntry) : Bool :=
  e.is_message || e.is_summary

/-- The timestamp filter of the `Some(cutoff)` branch: include if the parsed
timestamp is strictly after the cutoff, or if there is no parseable
timestamp. -/
def since_filter (cutoff : Int) (e : TranscriptEntry) : Bool :=
  ((e.timestamp.bind parse_from_rfc3339).map fun ts => decide (cutoff < ts)).getD true

/-- `get_messages_since` in `reader.rs`: messages and summaries, filtered by
session, and (when a cutoff is given) to entries strictly after it. -/
def get_messages_since (entries : List TranscriptEntry) (since : Option Int)
    (sessionId : Option String) : List TranscriptEntry :=
  match since with
  | some cutoff =>
    ((entries.filter content_filter).filter (session_filter sessionId)).filter
      (since_filter cutoff)
  | none =>
    (entries.filter content_filter).filter (session_filter sessionId)

/-! ## Reminder deduplication (`src/transcript/reader.rs`,
`dedupe_system_reminders`) -/

/-- Rust `str::find(pat)`: index of the first occurrence of `pat`. -/
def findSub (pat : List Char) : List Char → Option Nat
  | [] => if pat = [] then some 0 else none
  | c :: rest =>
    if pat.isPrefixOf (c :: rest) then some 0
    else (findSub pat rest).map (· + 1)

/-- The opening marker `<system-reminder>`. -/
def reminderOpen : List Char := "<system-reminder>".data

/-- The closing marker `</system-reminder>`. -/
def reminderClose : List Char := "</system-reminder>".data

/-- One iteration per fuel unit of the block-collection loop of
`dedupe_system_reminders`: starting at `start`, locate an opening marker and
the next closing marker, record the `(open_pos, close_end)` range, and
continue after it.  Each iteration advances `start` past a full
marker pair (at least 35 characters), so fuel `text.length + 1` can never be
exhausted and the function computes the loop's exact result. -/
def findBlocksFuel (text : List Char) : Nat → Nat → List (Nat × Nat)
  | _, 0 => []
  | start, fuel + 1 =>
    match findSub reminderOpen (text.drop start) with
    | none => []
    | some off =>
      let afterOpen := start + off + reminderOpen.length
      match findSub reminderClose (text.drop afterOpen) with
      | none => []
      | some coff =>
        let closeEnd := afterOpen + coff + reminderClose.length
        (start + off, closeEnd) :: findBlocksFuel text closeEnd fuel

/-- The block-collection loop of `dedupe_system_reminders`. -/
def findBlocks (text : List Char) (start : Nat) : List (Nat × Nat) :=
  findBlocksFuel text start (text.length + 1)

/-- The removal loop of `dedupe_system_reminders`: copy the prose between
consecutive removed ranges, then everything after the final removed range. -/
def removeBlocks (text : List Char) : List (Nat × Nat) → Nat → List Char
  | [], prevEnd => text.drop prevEnd
  | (s, e) :: rest, prevEnd =>
    (text.drop prevEnd).take (s - prevEnd) ++ removeBlocks text rest e

/-- `dedupe_system_reminders` in `reader.rs`: with zero or one reminder
blocks return the trimmed text; otherwise remove every block except the
last and trim. -/
def dedupe_system_reminders (text : List Char) : List Char :=
  let blocks := findBlocks text 0
  if blocks.length ≤ 1 then trim text
  else trim (removeBlocks text blocks.dropLast 0)

/-! ## Decision response parsing (`src/evaluate.rs`) -/

/-- `Confidence` in `evaluate.rs`. -/
inductive Confidence
  | High
  | Medium
  | Low
  deriving DecidableEq

/-- `strip_markdown_prefix` in `evaluate.rs`:
`line.trim().trim_start_matches(['#', '>', '*']).trim()`. -/
def stripMarkdown (line : List Char) : List Char :=
  trim ((trim line).dropWhile fun c => c = '#' ∨ c = '>' ∨ c = '*')

/-- A line's `DECISION:` marker, if present after markdown stripping:
`strip_markdown_prefix(line).strip_prefix("DECISION:")`. -/
def decisionMarker (line : List Char) : Option (List Char) :=
  stripPre "DECISION:".data (stripMarkdown line)

/-- The top-down scan of the `for (idx, line)` loop: the first line carrying a
`DECISION:` marker, with its index and the text after the marker. -/
def scanForDecision : List (List Char) → Option (Nat × List Char)
  | [] => none
  | l :: rest =>
    match decisionMarker l with
    | some part => some (0, part)
    | none => (scanForDecision rest).map fun p => (p.1 + 1, p.2)

/-- The verdict token: `decision_part.trim_start_matches('*').trim().to_uppercase()`. -/
def normalizeVerdict (part : List Char) : List Char :=
  toUpperChars (trim (part.dropWhile (· = '*')))

/-- Parse a `CONFIDENCE:` value: `HIGH`, `MEDIUM` or `LOW`, case-insensitively. -/
def parseConfLevel (c : List Char) : Option Confidence :=
  if toUpperChars (trim c) = "HIGH".data then some Confidence.High
  else if toUpperChars (trim c) = "MEDIUM".data then some Confidence.Medium
  else if toUpperChars (trim c) = "LOW".data then some Confidence.Low
  else none

/-- The `for offset in 1..=3` lookahead: the first existing, non-blank line at
`idx + offset`, as its absolute index paired with its trimmed text (blank
lines are skipped, missing indices fall through). -/
def firstNonblank (lines : List (List Char)) (idx : Nat) :
    List Nat → Option (Nat × List Char)
  | [] => none
  | o :: os =>
    match lines[idx + o]? with
    | some l =>
      if (trim l).isEmpty then firstNonblank lines idx os
      else some (idx + o, trim l)
    | none => firstNonblank lines idx os

/-- The confidence search of `parse_decision_response`: look at the first
non-blank line within three lines below the decision line; if it carries a
valid `CONFIDENCE:` marker, record the level and the line's index. -/
def confidenceScan (lines : List (List Char)) (idx : Nat) :
    Option Confidence × Option Nat :=
  match firstNonblank lines idx [1, 2, 3] with
  | some (lineIdx, trimmed) =>
    match stripPre "CONFIDENCE:".data trimmed with
    | some c =>
      let conf := parseConfLevel c
      (conf, if conf.isSome then some lineIdx else none)
    | none => (none, none)
  | none => (none, none)

/-- The feedback body: lines from `start`, leading blank lines skipped,
joined, trimmed, with a trailing code fence stripped. -/
def feedbackBody (lines : List (List Char)) (start : Nat) : List Char :=
  trim (trimEndMatches "```".data
    (trim (intercalateNl ((lines.drop start).dropWhile fun l => (trim l).isEmpty))))

/-- `parse_decision_response` in `evaluate.rs`: scan for the first
`DECISION:` line, read an optional `CONFIDENCE:` below it, take the rest as
feedback, and default every unrecognized shape to blocking.  Returns
`(has_concerns, feedback, confidence)`. -/
def parse_decision_response (response : List Char) :
    Bool × List Char × Option Confidence :=
  let lines := rustLines response
  if lines.isEmpty then (true, response, none)
  else
    match scanForDecision lines with
    | some (idx, part) =>
      let decision := normalizeVerdict part
      let (confidence, confidenceLineIdx) := confidenceScan lines idx
      let start := match confidenceLineIdx with
        | some ci => ci + 1
        | none => idx + 1
      let feedback := feedbackBody lines start
      if decision = "ALLOW".data then (false, feedback, confidence)
      else if decision = "BLOCK".data then (true, feedback, confidence)
      else (true, feedback, confidence)
    | none =>
      let hasConcerns :=
        !(eqIgnoreAsciiCase response "no concerns.".data
          || eqIgnoreAsciiCase response "no concerns".data)
      (hasConcerns, response, none)

/-! ## Watermark state and evaluation cycles (`src/state.rs`,
`src/evaluate.rs`) -/

/-- `State` in `state.rs`: the per-session watermark record.  Timestamps are
UTC nanoseconds. -/
structure State where
  last_evaluated : Option Int
  disabled : Bool
  deriving DecidableEq

/-- `State::mark_evaluated_at`: store the supplied timestamp. -/
def mark_evaluated_at (s : State) (timestamp : Int) : State :=
  { s with last_evaluated := some timestamp }

/-- The watermark-relevant outcome of one `evaluate_llm` invocation:
  * `noNewMessages` — the selected window is empty and the function returns
    early with "No concerns." before any state update;
  * `invokeFailed` — `claude::invoke` returns an error (command failure,
    timeout, or a reply payload that fails to parse), which propagates out of
    `evaluate_llm` before the state update;
  * `evaluated readAt` — the call succeeds and the state is updated with
    `mark_evaluated_at(transcript_read_at)`, the instant captured before the
    transcript was read. -/
inductive CycleOutcome
  | noNewMessages
  | invokeFailed
  | evaluated (readAt : Int)

/-- The effect of one `evaluate_llm` cycle on the persisted watermark. -/
def runCycle (s : State) : CycleOutcome → State
  | .noNewMessages => s
  | .invokeFailed => s
  | .evaluated t => mark_evaluated_at s t

/-- The read instants captured by the successful cycles of a sequence, in
order.  Each is `Utc::now()` taken at the start of its cycle. -/
def readTimes (cycles : List CycleOutcome) : List Int :=
  cycles.filterMap fun o =>
    match o with
    | .evaluated t => some t
    | _ => none

/-- The sequence of persisted watermark values along a run: the initial state
followed by the state after each cycle. -/
def watermarkTrace (s0 : State) (cycles : List CycleOutcome) : List (Option Int) :=
  (List.scanl runCycle s0 cycles).map State.last_evaluated

/-- The "once set, non-decreasing" order on watermark values: an unset
watermark may become anything, a set watermark never becomes unset and never
decreases. -/
def wmLe : Option Int → Option Int → Prop
  | none, _ => True
  | some _, none => False
  | some a, some b => a ≤ b

/-! ## Decision journal (`src/decision.rs`) -/

/-- `Phase` in `decision.rs`. -/
inductive Phase
  | Exploring
  | Discussing
  | Ready
  deriving DecidableEq

/-- `DecisionType` in `decision.rs`. -/
inductive DecisionType
  | PhaseTransition
  | OverrideGranted
  | FeedbackAccepted
  | PrecompactSnapshot
  deriving DecidableEq

/-- A `chrono::DateTime<Utc>` as its civil fields, the view the journal's
filename formatting consumes.  chrono guarantees `year < 10000` for
formatted in-range dates, `month ≤ 12`, `day ≤ 31`, `hour ≤ 23`,
`minute/second ≤ 59` (plus leap-second nanoseconds). -/
structure UtcTimestamp where
  year : Nat
  month : Nat
  day : Nat
  hour : Nat
  minute : Nat
  second : Nat
  nanosecond : Nat
  deriving DecidableEq

/-- `Decision` in `decision.rs`. -/
structure Decision where
  timestamp : UtcTimestamp
  session_id : Option String
  decision_type : DecisionType
  from_state : Option Phase
  to_state : Option Phase
  context : Option String
  trigger : Option String
  approved_scope : Option String
  deriving DecidableEq

/-- Two zero-padded decimal digits, as produced by chrono's `%m`, `%d`,
`%H`, `%M`, `%S` for in-range values (`n < 100`). -/
def fmt2 (n : Nat) : List Char :=
  [Nat.digitChar (n / 10), Nat.digitChar (n % 10)]

/-- Four zero-padded decimal digits, as produced by chrono's `%Y` for
`n < 10000`. -/
def fmt4 (n : Nat) : List Char :=
  [Nat.digitChar (n / 1000), Nat.digitChar (n / 100 % 10),
   Nat.digitChar (n / 10 % 10), Nat.digitChar (n % 10)]

/-- The filename `Journal::write` derives from a decision's timestamp:
`timestamp.format("%Y-%m-%dT%H-%M-%SZ.yaml")` — one-second resolution, the
nanosecond field is not consulted. -/
def decisionFilename (t : UtcTimestamp) : List Char :=
  fmt4 t.year ++ '-' :: fmt2 t.month ++ '-' :: fmt2 t.day ++
    'T' :: fmt2 t.hour ++ '-' :: fmt2 t.minute ++ '-' :: fmt2 t.second ++
    ['Z', '.', 'y', 'a', 'm', 'l']

/-- The decisions directory as a map from filename to record;
`Journal::write` opens the path with `File::create`, which truncates, so an
existing record under the same name is silently replaced. -/
def journalWrite (store : List (List Char × Decision)) (d : Decision) :
    List (List Char × Decision) :=
  (decisionFilename d.timestamp, d) ::
    store.filter fun p => decide (p.1 ≠ decisionFilename d.timestamp)

/-- A decision's timestamp truncated to the one-second resolution the
filename carries. -/
def truncToSecond (t : UtcTimestamp) : Nat × Nat × Nat × Nat × Nat × Nat :=
  (t.year, t.month, t.day, t.hour, t.minute, t.second)

/-! ## Feedback mailbox (`src/feedback.rs`) -/

/-- `Feedback` in `feedback.rs`. -/
structure Feedback where
  message : String
  deriving DecidableEq

/-- The mailbox file: `some c` means the file exists with contents `c`,
`none` that it is absent. -/
abbrev FeedbackSlot := Option String

/-- `FeedbackQueue::has_feedback`: the file exists and is non-empty. -/
def has_feedback (slot : FeedbackSlot) : Bool :=
  match slot with
  | some c => decide (0 < c.length)
  | none => false

/-- `FeedbackQueue::write`: overwrite the file unconditionally, whatever it
held before. -/
def fq_write (_slot : FeedbackSlot) (feedback : Feedback) : FeedbackSlot :=
  some feedback.message

/-- `FeedbackQueue::get_and_clear`: if nothing is pending return `None` and
leave the file alone; otherwise read the contents, delete the file, and
return the contents. -/
def get_and_clear (slot : FeedbackSlot) : Option String × FeedbackSlot :=
  if has_feedback slot then
    match slot with
    | some c => (some c, none)
    | none => (none, none)
  else (none, slot)

/-! ## Concrete transcript fixtures (the race-scenario transcript of
`reader.rs`'s tests and the spec's §8 example) -/

/-- Message A: user message in session `s1` at 10:00:00. -/
def msgA : TranscriptEntry :=
  .User "a" none (some "s1") (some "2025-01-15T10:00:00Z")
    ⟨"user", .Text "Message A"⟩

/-- Message B: user message in session `s1` at 10:00:10, written while the
external call was running. -/
def msgB : TranscriptEntry :=
  .User "b" none (some "s1") (some "2025-01-15T10:00:10Z")
    ⟨"user", .Text "Message B (during eval)"⟩

/-- The read instant captured before invoking the reasoning engine:
10:00:05. -/
def transcript_read_at : Int :=
  (parse_from_rfc3339 "2025-01-15T10:00:05Z").getD 0

/-- Message B's instant: 10:00:10. -/
def msgB_instant : Int :=
  (parse_from_rfc3339 "2025-01-15T10:00:10Z").getD 0

/-- A summary entry; summaries carry no session id and no timestamp. -/
def summaryEntry : TranscriptEntry :=
  .Summary "Earlier context was compacted" none

/-- A user entry of session `s1` whose timestamp field is present but not an
RFC 3339 instant. -/
def malformedTsEntry : TranscriptEntry :=
  .User "c" none (some "s1") (some "yesterday at noon")
    ⟨"user", .Text "hello"⟩

/-! ## Claims -/

/-- Claim C1, counterexample: with a session filter, a summary entry does
NOT pass through `get_messages_since` — the same summary that is returned
without a filter disappears when the filter `s1` is given, because
`session_id()` of a summary is `None` and the filter requires equality with
`Some("s1")`. -/
theorem summary_filtered_out_counterexample :
    get_messages_since [summaryEntry] none (some "s1") = [] ∧
      get_messages_since [summaryEntry] none none = [summaryEntry] := by
  constructor <;> decide

/-- Claim C1 (amended): when `get_messages_since` is given a session filter,
every returned entry — user, assistant, and in particular summary — has a
session id equal to the filter; since summaries carry no session id, they
are excluded rather than passed through. -/
theorem session_filter_requires_match (entries : List TranscriptEntry)
    (since : Option Int) (sid : String) (e : TranscriptEntry)
    (h : e ∈ get_messages_since entries since (some sid)) :
    e.session_id = some sid := by
  have hsf : session_filter (some sid) e = true := by
    cases since with
    | none =>
      simp only [get_messages_since, List.mem_filter] at h
      exact h.2
    | some cutoff =>
      simp only [get_messages_since, List.mem_filter] at h
      exact h.1.2
  simpa [session_filter] using hsf

/-- Claim C1 witness: the theorem applied to a concrete matching entry. -/
theorem session_filter_requires_match_witness :
    msgB ∈ get_messages_since [msgB] none (some "s1") ∧
      msgB.session_id = some "s1" :=
  ⟨by decide, session_filter_requires_match [msgB] none "s1" msgB (by decide)⟩

/-- Claim C2: with a cutoff, `get_messages_since` never returns an entry
whose timestamp denotes an instant at or before the cutoff — whenever a
returned entry's timestamp parses, the instant is strictly after. -/
theorem selected_after_cutoff (entries : List TranscriptEntry) (cutoff : Int)
    (sid : Option String) (e : TranscriptEntry) (ts : String) (t : Int)
    (hmem : e ∈ get_messages_since entries (some cutoff) sid)
    (hts : e.timestamp = some ts)
    (hparse : parse_from_rfc3339 ts = some t) :
    cutoff < t := by
  simp only [get_messages_since, List.mem_filter] at hmem
  have hfilter : since_filter cutoff e = true := hmem.2
  rw [since_filter, hts] at hfilter
  simp only [Option.some_bind, hparse] at hfilter
  simpa using hfilter

/-- Claim C2 witness: message B, returned for cutoff 10:00:05, has instant
10:00:10, strictly after the cutoff. -/
theorem selected_after_cutoff_witness :
    msgB ∈ get_messages_since [msgA, msgB] (some transcript_read_at) (some "s1") ∧
      msgB.timestamp = some "2025-01-15T10:00:10Z" ∧
      parse_from_rfc3339 "2025-01-15T10:00:10Z" = some msgB_instant ∧
      transcript_read_at < msgB_instant :=
  ⟨by decide, rfl, by decide,
    selected_after_cutoff [msgA, msgB] transcript_read_at (some "s1") msgB
      "2025-01-15T10:00:10Z" msgB_instant (by decide) rfl (by decide)⟩

/-- Claim C3: the race scenario.  With messages A (10:00:00) and B
(10:00:10) in session `s1` and the captured read time 10:00:05 as cursor,
the second evaluation cycle selects exactly message B. -/
theorem race_scenario_selects_only_B :
    get_messages_since [msgA, msgB] (some transcript_read_at) (some "s1") =
      [msgB] := by
  decide

/-- Claim C10: an entry whose timestamp field is present but does not parse
as RFC 3339 is treated exactly like an entry with no timestamp: for every
cursor it is included, subject only to the content and session filters. -/
theorem malformed_timestamp_included (entries : List TranscriptEntry)
    (since : Option Int) (sid : Option String) (e : TranscriptEntry) (ts : String)
    (hmem : e ∈ entries) (hcontent : content_filter e = true)
    (hsession : session_filter sid e = true)
    (hts : e.timestamp = some ts)
    (hparse : parse_from_rfc3339 ts = none) :
    e ∈ get_messages_since entries since sid := by
  cases since with
  | none =>
    simp only [get_messages_since, List.mem_filter]
    exact ⟨⟨hmem, hcontent⟩, hsession⟩
  | some cutoff =>
    simp only [get_messages_since, List.mem_filter]
    refine ⟨⟨⟨hmem, hcontent⟩, hsession⟩, ?_⟩
    simp [since_filter, hts, hparse]

/-- Claim C10 witness: a user entry with the unparseable timestamp
`"yesterday at noon"` is returned even for a cursor far in the future. -/
theorem malformed_timestamp_included_witness :
    malformedTsEntry ∈ [malformedTsEntry] ∧
      content_filter malformedTsEntry = true ∧
      session_filter (some "s1") malformedTsEntry = true ∧
      malformedTsEntry.timestamp = some "yesterday at noon" ∧
      parse_from_rfc3339 "yesterday at noon" = none ∧
      malformedTsEntry ∈
        get_messages_since [malformedTsEntry] (some msgB_instant) (some "s1") :=
  ⟨by decide, by decide, by decide, rfl, by decide,
    malformed_timestamp_included [malformedTsEntry] (some msgB_instant)
      (some "s1") malformedTsEntry "yesterday at noon" (by decide) (by decide)
      (by decide) rfl (by decide)⟩

/-- The watermark trace always begins with the initial state's value. -/
theorem watermarkTrace_head (s : State) (os : List CycleOutcome) :
    (watermarkTrace s os).head? = some s.last_evaluated := by
  cases os <;> simp [watermarkTrace]

/-- `wmLe` is reflexive. -/
theorem wmLe_refl (a : Option Int) : wmLe a a := by
  cases a <;> simp [wmLe]

/-- Helper for claim C4: if the captured read instants (preceded by the
initial watermark, when set) form a non-decreasing chain, the persisted
watermark values form a `wmLe` chain. -/
theorem chain_watermark (cycles : List CycleOutcome) :
    ∀ s0 : State,
      List.Chain' (· ≤ ·) (s0.last_evaluated.toList ++ readTimes cycles) →
      List.Chain' wmLe (watermarkTrace s0 cycles) := by
  induction cycles with
  | nil =>
    intro s0 _
    simp [watermarkTrace]
  | cons o os ih =>
    intro s0 h
    have htrace : watermarkTrace s0 (o :: os) =
        s0.last_evaluated :: watermarkTrace (runCycle s0 o) os := by
      simp [watermarkTrace]
    rw [htrace, List.chain'_cons']
    cases o with
    | noNewMessages =>
      refine ⟨?_, ih s0 (by simpa [readTimes] using h)⟩
      intro b hb
      rw [watermarkTrace_head] at hb
      cases hb
      exact wmLe_refl _
    | invokeFailed =>
      refine ⟨?_, ih s0 (by simpa [readTimes] using h)⟩
      intro b hb
      rw [watermarkTrace_head] at hb
      cases hb
      exact wmLe_refl _
    | evaluated t =>
      have hreads : readTimes (CycleOutcome.evaluated t :: os) = t :: readTimes os := by
        simp [readTimes]
      rw [hreads] at h
      have htail : List.Chain' (· ≤ ·) (t :: readTimes os) := by
        cases hlv : s0.last_evaluated with
        | none => simpa [hlv] using h
        | some a =>
          rw [hlv] at h
          exact (List.chain'_cons.mp h).2
      refine ⟨?_, ih (runCycle s0 (CycleOutcome.evaluated t)) ?_⟩
      · intro b hb
        rw [watermarkTrace_head] at hb
        cases hb
        cases hlv : s0.last_evaluated with
        | none => simp [runCycle, mark_evaluated_at, wmLe]
        | some a =>
          rw [hlv] at h
          have hle : a ≤ t := (List.chain'_cons.mp h).1
          simpa [runCycle, mark_evaluated_at, wmLe] using hle
      · simpa [runCycle, mark_evaluated_at] using htail

/-- Claim C4: across a sequence of evaluation cycles whose captured read
instants are non-decreasing (they are wall-clock captures made in order),
the persisted `last_evaluated`, once set, never unsets and never decreases;
and a cycle whose external call fails — including a reply that fails to
parse, which surfaces as an error from `claude::invoke` before the state
update — leaves the watermark untouched. -/
theorem watermark_monotone (s0 : State) (cycles : List CycleOutcome)
    (hclock : List.Chain' (· ≤ ·) (s0.last_evaluated.toList ++ readTimes cycles)) :
    List.Chain' wmLe (watermarkTrace s0 cycles) ∧
      ∀ s : State, runCycle s CycleOutcome.invokeFailed = s :=
  ⟨chain_watermark cycles s0 hclock, fun _ => rfl⟩

/-- Claim C4 witness: a run of two successful cycles around a failed one,
starting from an unset watermark. -/
theorem watermark_monotone_witness :
    List.Chain' (· ≤ ·)
      ((State.mk none false).last_evaluated.toList ++
        readTimes [CycleOutcome.evaluated 3, CycleOutcome.invokeFailed,
          CycleOutcome.evaluated 5]) ∧
      List.Chain' wmLe
        (watermarkTrace (State.mk none false)
          [CycleOutcome.evaluated 3, CycleOutcome.invokeFailed,
            CycleOutcome.evaluated 5]) := by
  have hclock : List.Chain' (· ≤ ·)
      ((State.mk none false).last_evaluated.toList ++
        readTimes [CycleOutcome.evaluated 3, CycleOutcome.invokeFailed,
          CycleOutcome.evaluated 5]) := by
    simp [readTimes, List.chain'_cons]
  exact ⟨hclock,
    (watermark_monotone (State.mk none false) _ hclock).1⟩

/-- `rustLinesCore` always produces at least one line. -/
theorem rustLinesCore_ne_nil (cs : List Char) : ∀ acc, rustLinesCore cs acc ≠ [] := by
  induction cs with
  | nil =>
    intro acc
    simp [rustLinesCore]
  | cons c rest ih =>
    intro acc
    rw [rustLinesCore.eq_def]
    split
    · simp
    · simp
    · rename_i hne heq
      injection heq with h1 h2
      subst h2
      apply ih

/-- `rustLines` yields no lines exactly on the empty input. -/
theorem rustLines_eq_nil (cs : List Char) : rustLines cs = [] ↔ cs = [] := by
  constructor
  · intro h
    cases cs with
    | nil => rfl
    | cons c rest => exact absurd h (rustLinesCore_ne_nil (c :: rest) [])
  · intro h
    subst h
    rfl

/-- Claim C5: the top-down scan is authoritative — if line `i` is the first
line carrying a `DECISION:` marker (after markdown stripping), the scan
settles on it; and the concrete reply `"DECISION: ALLOW\n\nGreat work."`
parses to non-blocking with feedback `"Great work."` and no confidence. -/
theorem first_decision_line_authoritative :
    (∀ (ls : List (List Char)) (i : Nat) (li part : List Char),
        ls[i]? = some li →
        decisionMarker li = some part →
        (∀ j, j < i → ∀ lj, ls[j]? = some lj → decisionMarker lj = none) →
        scanForDecision ls = some (i, part)) ∧
      parse_decision_response "DECISION: ALLOW\n\nGreat work.".data =
        (false, "Great work.".data, none) := by
  constructor
  · intro ls
    induction ls with
    | nil =>
      intro i li part hget
      simp at hget
    | cons l rest ih =>
      intro i li part hget hmark hfirst
      cases i with
      | zero =>
        simp only [List.getElem?_cons_zero, Option.some.injEq] at hget
        subst hget
        simp [scanForDecision, hmark]
      | succ k =>
        have h0 : decisionMarker l = none :=
          hfirst 0 (Nat.succ_pos k) l (by simp)
        have hrest : scanForDecision rest = some (k, part) := by
          apply ih k li part (by simpa using hget) hmark
          intro j hj lj hlj
          exact hfirst (j + 1) (by omega) lj (by simpa using hlj)
        simp [scanForDecision, h0, hrest]
  · decide

/-- Claim C5 witness: the scan applied to a two-line reply whose second line
carries the marker under markdown decoration. -/
theorem first_decision_line_authoritative_witness :
    decisionMarker "## DECISION: BLOCK".data = some " BLOCK".data ∧
      scanForDecision [" nope".data, "## DECISION: BLOCK".data] =
        some (1, " BLOCK".data) := by
  refine ⟨by decide, ?_⟩
  apply first_decision_line_authoritative.1
    [" nope".data, "## DECISION: BLOCK".data] 1 "## DECISION: BLOCK".data
    " BLOCK".data (by decide) (by decide)
  intro j hj lj hlj
  have hj0 : j = 0 := by omega
  subst hj0
  simp only [List.getElem?_cons_zero, Option.some.injEq] at hlj
  subst hlj
  decide

/-- Claim C6: the parser returns non-blocking in exactly two situations —
the first `DECISION:` line's verdict token normalizes to `ALLOW`, or no
`DECISION:` line exists and the whole text is, ASCII-case-insensitively,
"no concerns." or "no concerns"; every other input blocks.  In particular
the unknown verdict `"DECISION: MAYBE\n\nunsure"` blocks. -/
theorem nonblocking_characterization :
    (∀ s : List Char,
        (parse_decision_response s).1 = false ↔
          ((∃ i part, scanForDecision (rustLines s) = some (i, part) ∧
              normalizeVerdict part = "ALLOW".data) ∨
            (scanForDecision (rustLines s) = none ∧
              (eqIgnoreAsciiCase s "no concerns.".data = true ∨
                eqIgnoreAsciiCase s "no concerns".data = true)))) ∧
      parse_decision_response "DECISION: MAYBE\n\nunsure".data =
        (true, "unsure".data, none) := by
  constructor
  · intro s
    by_cases hnil : (rustLines s).isEmpty
    · have hs : s = [] := by
        rw [List.isEmpty_iff] at hnil
        exact (rustLines_eq_nil s).mp hnil
      subst hs
      have hempty : rustLines ([] : List Char) = [] := rfl
      simp [parse_decision_response, hempty, scanForDecision, eqIgnoreAsciiCase]
    · rw [parse_decision_response]
      simp only [hnil, Bool.false_eq_true, if_false]
      cases hscan : scanForDecision (rustLines s) with
      | none =>
        cases h1 : eqIgnoreAsciiCase s "no concerns.".data <;>
          cases h2 : eqIgnoreAsciiCase s "no concerns".data <;>
            simp [hscan, h1, h2]
      | some p =>
        obtain ⟨idx, part⟩ := p
        by_cases hv : normalizeVerdict part = "ALLOW".data
        · simp only [hscan, hv, if_true]
          constructor
          · intro _
            exact Or.inl ⟨idx, part, rfl, hv⟩
          · intro _
            trivial
        · by_cases hb : normalizeVerdict part = "BLOCK".data <;>
            simp [hscan, hv, hb]
  · decide

/-- Claim C7: the reminder deduplication returns the text unchanged (up to
trimming) when it finds at most one delimited block, and on the concrete
three-block text keeps only the last block, preserving the prose "A" and
"B". -/
theorem reminder_dedupe_spec :
    (∀ t : List Char, (findBlocks t 0).length ≤ 1 →
        dedupe_system_reminders t = trim t) ∧
      dedupe_system_reminders
          ("<system-reminder>1</system-reminder>A<system-reminder>2</system-reminder>B<system-reminder>3</system-reminder>".data) =
        "AB<system-reminder>3</system-reminder>".data := by
  constructor
  · intro t h
    simp [dedupe_system_reminders, h]
  · decide

/-- Claim C7 witness: text with no reminder block is returned trimmed. -/
theorem reminder_dedupe_spec_witness :
    (findBlocks "  plain prose  ".data 0).length ≤ 1 ∧
      dedupe_system_reminders "  plain prose  ".data = trim "  plain prose  ".data :=
  ⟨by decide, reminder_dedupe_spec.1 "  plain prose  ".data (by decide)⟩

/-- `Nat.digitChar` is injective on single digits. -/
theorem digitChar_inj : ∀ a < 10, ∀ b < 10, Nat.digitChar a = Nat.digitChar b → a = b := by
  decide

/-- Timestamp fields inside the widths the fixed-width formatting assumes
(chrono's in-range values satisfy much tighter bounds). -/
abbrev fieldsInRange (t : UtcTimestamp) : Prop :=
  t.year < 10000 ∧ t.month < 100 ∧ t.day < 100 ∧ t.hour < 100 ∧
    t.minute < 100 ∧ t.second < 100

/-- A concrete feedback decision carrying a given timestamp. -/
def decisionAt (t : UtcTimestamp) : Decision :=
  ⟨t, some "sess-1", DecisionType.FeedbackAccepted, none, none,
    some "feedback text", none, none⟩

/-- 2025-01-15 10:30:00.1 -/
def tNanoA : UtcTimestamp := ⟨2025, 1, 15, 10, 30, 0, 100000000⟩

/-- 2025-01-15 10:30:00.9 -/
def tNanoB : UtcTimestamp := ⟨2025, 1, 15, 10, 30, 0, 900000000⟩

/-- 2025-01-15 10:30:01 -/
def tSecB : UtcTimestamp := ⟨2025, 1, 15, 10, 30, 1, 0⟩

/-- Claim C8, counterexample: two decisions whose timestamps differ only at
sub-second granularity map to the same filename, and the second write
silently replaces the first record in the journal directory. -/
theorem subsecond_timestamps_collide_counterexample :
    decisionAt tNanoA ≠ decisionAt tNanoB ∧
      (decisionAt tNanoA).timestamp ≠ (decisionAt tNanoB).timestamp ∧
      decisionFilename (decisionAt tNanoA).timestamp =
        decisionFilename (decisionAt tNanoB).timestamp ∧
      journalWrite (journalWrite [] (decisionAt tNanoA)) (decisionAt tNanoB) =
        [(decisionFilename tNanoB, decisionAt tNanoB)] := by
  refine ⟨by decide, by decide, by decide, by decide⟩

/-- Claim C8 (amended): the filename is derived deterministically from the
timestamp at one-second resolution, so two decisions are written to distinct
files exactly when their timestamps differ at or above that resolution —
differing truncated-to-second fields give distinct filenames. -/
theorem second_resolution_distinct_files (d1 d2 : Decision)
    (h1 : fieldsInRange d1.timestamp) (h2 : fieldsInRange d2.timestamp)
    (hne : truncToSecond d1.timestamp ≠ truncToSecond d2.timestamp) :
    decisionFilename d1.timestamp ≠ decisionFilename d2.timestamp := by
  intro heq
  apply hne
  obtain ⟨hy1, hmo1, hd1, hh1, hmi1, hs1⟩ := h1
  obtain ⟨hy2, hmo2, hd2, hh2, hmi2, hs2⟩ := h2
  simp only [decisionFilename, fmt4, fmt2, List.cons_append, List.nil_append,
    List.cons.injEq, and_true, Char.isValue] at heq
  obtain ⟨a1, a2, a3, a4, _, b1, b2, _, c1, c2, _, e1, e2, _, f1, f2, _, g1, g2⟩ :=
    heq
  have ha1 := digitChar_inj _ (by omega) _ (by omega) a1
  have ha2 := digitChar_inj _ (by omega) _ (by omega) a2
  have ha3 := digitChar_inj _ (by omega) _ (by omega) a3
  have ha4 := digitChar_inj _ (by omega) _ (by omega) a4
  have hb1 := digitChar_inj _ (by omega) _ (by omega) b1
  have hb2 := digitChar_inj _ (by omega) _ (by omega) b2
  have hc1 := digitChar_inj _ (by omega) _ (by omega) c1
  have hc2 := digitChar_inj _ (by omega) _ (by omega) c2
  have he1 := digitChar_inj _ (by omega) _ (by omega) e1
  have he2 := digitChar_inj _ (by omega) _ (by omega) e2
  have hf1 := digitChar_inj _ (by omega) _ (by omega) f1
  have hf2 := digitChar_inj _ (by omega) _ (by omega) f2
  have hg1 := digitChar_inj _ (by omega) _ (by omega) g1
  have hg2 := digitChar_inj _ (by omega) _ (by omega) g2
  simp only [truncToSecond, Prod.mk.injEq]
  refine ⟨?_, ?_, ?_, ?_, ?_, ?_⟩ <;> omega

/-- Claim C8 witness: two decisions one second apart get distinct
filenames. -/
theorem second_resolution_distinct_files_witness :
    fieldsInRange (decisionAt tNanoA).timestamp ∧
      fieldsInRange (decisionAt tSecB).timestamp ∧
      truncToSecond (decisionAt tNanoA).timestamp ≠
        truncToSecond (decisionAt tSecB).timestamp ∧
      decisionFilename (decisionAt tNanoA).timestamp ≠
        decisionFilename (decisionAt tSecB).timestamp :=
  ⟨by decide, by decide, by decide,
    second_resolution_distinct_files (decisionAt tNanoA) (decisionAt tSecB)
      (by decide) (by decide) (by decide)⟩

/-- Claim C9, counterexample: writing an empty message leaves nothing
retrievable — `has_feedback` demands a non-empty file, so `get_and_clear`
after `write("")` returns `None` (and does not even delete the file),
falsifying "take after a write returns the written message exactly once". -/
theorem empty_write_not_retrievable_counterexample :
    fq_write none ⟨""⟩ = some "" ∧
      has_feedback (fq_write none ⟨""⟩) = false ∧
      get_and_clear (fq_write none ⟨""⟩) = (none, some "") := by
  refine ⟨rfl, by decide, by decide⟩

/-- Claim C9 (amended): for a non-empty message, the mailbox is a single
slot — a second write wins over the first, `get_and_clear` then yields that
message exactly once, after which nothing is pending and a further
`get_and_clear` returns `None`. -/
theorem mailbox_single_slot (slot : FeedbackSlot) (m1 m2 : String)
    (h : 0 < m2.length) :
    get_and_clear (fq_write (fq_write slot ⟨m1⟩) ⟨m2⟩) = (some m2, none) ∧
      has_feedback (get_and_clear (fq_write (fq_write slot ⟨m1⟩) ⟨m2⟩)).2 = false ∧
      get_and_clear (get_and_clear (fq_write (fq_write slot ⟨m1⟩) ⟨m2⟩)).2 =
        (none, none) := by
  simp [fq_write, get_and_clear, has_feedback, h]

/-- Claim C9 witness: the slot behaviour on two concrete messages. -/
theorem mailbox_single_slot_witness :
    0 < ("second warning" : String).length ∧
      get_and_clear (fq_write (fq_write none ⟨"first warning"⟩) ⟨"second warning"⟩) =
        (some "second warning", none) :=
  ⟨by decide,
    (mailbox_single_slot none "first warning" "second warning" (by decide)).1⟩

end Superego
